import Mathlib

/-!
Verification of the discount/pricing core of the e-commerce API.

The development shallowly embeds the pricing and discount-management code:

* `Discount`, `Product`, `ProductDiscount` mirror the Mongoose schemas
  (`discount.schema.ts`, `product.schema.ts`, `product-discount.schema.ts`).
  Timestamps are embedded as integers (epoch milliseconds), monetary values
  and discount values as rationals.  Optional schema fields that none of the
  verified operations read (`description`, `minimumOrderValue`,
  `minimumQuantity`, images, metadata, timestamps) are omitted; the mappers
  copy them through unchanged.
* `isDiscountValid` embeds `DiscountRepository.isDiscountValid`.
* `calculateProductPricing` and `mapToResponseDto` embed the private methods
  of `ProductsService`; the repository fetches become explicit parameters
  (the list of linked discount ids returned by
  `ProductDiscountRepository.findByProduct`, and the discount store as a
  lookup function standing for `DiscountRepository.findById`).
* `createDiscount` / `updateDiscount` embed `DiscountsService.create` /
  `DiscountsService.update`, with the Mongo collection embedded as a list of
  records threaded through explicitly.
* `unlinkProductFromDiscount` / `unlinkFromProduct` embed
  `ProductDiscountRepository.unlinkProductFromDiscount` and
  `DiscountsService.unlinkFromProduct`.
-/

/-- `DiscountType` enum from `discount.schema.ts`. -/
inductive DiscountType where
  | percentage
  | fixed_amount
deriving DecidableEq, Repr

/-- A discount record (`discount.schema.ts`).  `code` is optional and stored
uppercased; `maxUsageCount` is optional with schema bound `min: 1`;
`usageCount` defaults to 0. -/
structure Discount where
  id : Nat
  code : Option String := none
  name : String
  discountType : DiscountType
  value : ℚ
  startDate : ℤ
  endDate : ℤ
  isActive : Bool := true
  maxUsageCount : Option Nat := none
  usageCount : Nat := 0
deriving DecidableEq, Repr

/-- A product record (`product.schema.ts`), restricted to the fields the
pricing read path copies into the response. -/
structure Product where
  id : Nat
  name : String
  slug : String
  description : String
  basePrice : ℚ
  categoryId : Nat
  sku : String
deriving DecidableEq, Repr

/-- One entry of the `appliedDiscounts` array built by
`ProductsService.calculateProductPricing`. -/
structure AppliedDiscountInfo where
  id : Nat
  name : String
  discountType : DiscountType
  value : ℚ
deriving DecidableEq, Repr

/-- `ProductResponseDto` (`product-response.dto.ts`): `finalPrice` and
`appliedDiscounts` are optional fields, `none` embedding a field that is
absent (`undefined`) in the serialized response. -/
structure ProductResponseDto where
  id : Nat
  name : String
  slug : String
  description : String
  basePrice : ℚ
  categoryId : Nat
  sku : String
  finalPrice : Option ℚ
  appliedDiscounts : Option (List AppliedDiscountInfo)
deriving DecidableEq, Repr

/-- JS truthiness of the optional `maxUsageCount` field
(`discount.maxUsageCount &&` in `isDiscountValid`): present and nonzero. -/
def maxUsageTruthy (d : Discount) : Bool :=
  match d.maxUsageCount with
  | none => false
  | some m => m != 0

/-- The usage-cap clause of `DiscountRepository.isDiscountValid`:
`discount.maxUsageCount && discount.usageCount >= discount.maxUsageCount`. -/
def usageCapReached (d : Discount) : Bool :=
  match d.maxUsageCount with
  | none => false
  | some m => (m != 0) && (m ≤ d.usageCount)

/-- `DiscountRepository.isDiscountValid` (part_008, lines 65-81): the
argument is the result of `findById` (possibly `none`). -/
def isDiscountValid (now : ℤ) (fetched : Option Discount) : Bool :=
  match fetched with
  | none => false
  | some d =>
    if !d.isActive then false
    else if decide (now < d.startDate) || decide (d.endDate < now) then false
    else if usageCapReached d then false
    else true

/-- The inline validity filter of `ProductsService.calculateProductPricing`
(part_016, lines 240-244): `!discount || !discount.isActive` rejects, then
`discount.startDate <= now && discount.endDate >= now`. -/
def pricingFilterOk (now : ℤ) (d : Discount) : Bool :=
  d.isActive && decide (d.startDate ≤ now) && decide (now ≤ d.endDate)

/-- `discounts.filter(...)` over the fetched (possibly null) records,
keeping the non-null records that pass `pricingFilterOk`. -/
def filterValidDiscounts (now : ℤ) (fetched : List (Option Discount)) :
    List Discount :=
  fetched.filterMap (fun o =>
    match o with
    | none => none
    | some d => if pricingFilterOk now d then some d else none)

/-- Candidate discounted price for one discount
(part_016, lines 256-262). -/
def discountedPrice (basePrice : ℚ) (d : Discount) : ℚ :=
  match d.discountType with
  | DiscountType.percentage => basePrice * (1 - d.value / 100)
  | DiscountType.fixed_amount => max 0 (basePrice - d.value)

/-- `savings = basePrice - discountedPrice` (part_016, line 264). -/
def savings (basePrice : ℚ) (d : Discount) : ℚ :=
  basePrice - discountedPrice basePrice d

/-- The mutable loop state of the best-discount loop:
`finalPrice`, `bestDiscount`, `maxSavings` (part_016, lines 251-253). -/
structure BestAcc where
  finalPrice : ℚ
  bestDiscount : Option Discount
  maxSavings : ℚ
deriving DecidableEq, Repr

/-- One iteration of the best-discount loop (part_016, lines 255-270):
update the accumulator when `savings > maxSavings`. -/
def pricingStep (basePrice : ℚ) (acc : BestAcc) (d : Discount) : BestAcc :=
  if acc.maxSavings < savings basePrice d then
    { finalPrice := discountedPrice basePrice d
      bestDiscount := some d
      maxSavings := savings basePrice d }
  else acc

/-- The full best-discount loop, started from
`finalPrice = basePrice`, `bestDiscount = null`, `maxSavings = 0`. -/
def pickBest (basePrice : ℚ) (ds : List Discount) : BestAcc :=
  ds.foldl (pricingStep basePrice) ⟨basePrice, none, 0⟩

/-- The `appliedDiscounts` array built from `bestDiscount`
(part_016, lines 272-281). -/
def mkAppliedInfo (d : Discount) : AppliedDiscountInfo :=
  { id := d.id, name := d.name, discountType := d.discountType
    value := d.value }

/-- `bestDiscount ? [ {...} ] : []`. -/
def appliedList (acc : BestAcc) : List AppliedDiscountInfo :=
  match acc.bestDiscount with
  | some b => [mkAppliedInfo b]
  | none => []

/-- `ProductsService.mapToResponseDto` (part_016, lines 286-311):
`finalPrice` is set unconditionally; `appliedDiscounts` is set to
`undefined` when the list is empty. -/
def mapToResponseDto (product : Product) (finalPrice : ℚ)
    (appliedDiscounts : List AppliedDiscountInfo) : ProductResponseDto :=
  { id := product.id
    name := product.name
    slug := product.slug
    description := product.description
    basePrice := product.basePrice
    categoryId := product.categoryId
    sku := product.sku
    finalPrice := some finalPrice
    appliedDiscounts :=
      if 0 < appliedDiscounts.length then some appliedDiscounts else none }

/-- `ProductsService.calculateProductPricing` (part_016, lines 222-284).
`productDiscountIds` is the list of discount ids of the active links
returned by `ProductDiscountRepository.findByProduct`; `findById` is the
discount store lookup (`DiscountRepository.findById`), `none` standing for
a fetch that returns `null`. -/
def calculateProductPricing (now : ℤ) (product : Product)
    (productDiscountIds : List Nat) (findById : Nat → Option Discount) :
    ProductResponseDto :=
  let basePrice := product.basePrice
  if productDiscountIds.length = 0 then
    mapToResponseDto product basePrice []
  else
    let discounts := productDiscountIds.map findById
    let validDiscounts := filterValidDiscounts now discounts
    if validDiscounts.length = 0 then
      mapToResponseDto product basePrice []
    else
      let acc := pickBest basePrice validDiscounts
      mapToResponseDto product acc.finalPrice (appliedList acc)

/-- NestJS exceptions raised by `DiscountsService`, embedded as error
values. -/
inductive ServiceError where
  | conflictError (msg : String)
  | badRequestError (msg : String)
  | notFoundError (msg : String)
deriving DecidableEq, Repr

/-- `CreateDiscountDto` (part_013), restricted to the fields the service
reads; `startDate`/`endDate` are the parsed `new Date(...)` values. -/
structure CreateDiscountDto where
  code : Option String := none
  name : String
  discountType : DiscountType
  value : ℚ
  startDate : ℤ
  endDate : ℤ
  maxUsageCount : Option Nat := none
deriving DecidableEq, Repr

/-- `UpdateDiscountDto` (`update-discount.dto.ts`): every field optional,
`none` embedding an absent field. -/
structure UpdateDiscountDto where
  code : Option String := none
  name : Option String := none
  discountType : Option DiscountType := none
  value : Option ℚ := none
  startDate : Option ℤ := none
  endDate : Option ℤ := none
  isActive : Option Bool := none
  maxUsageCount : Option Nat := none
deriving DecidableEq, Repr

/-- `DiscountRepository.findByCode`: `findOne({ code: code.toUpperCase() })`
over the discount collection. -/
def findByCode (store : List Discount) (code : String) : Option Discount :=
  store.find? (fun d => d.code == some code.toUpper)

/-- `BaseRepository.findById` on the discount collection. -/
def findDiscountById (store : List Discount) (id : Nat) : Option Discount :=
  store.find? (fun d => d.id == id)

/-- `DiscountsService.create` (part_011, lines 23-44), with the collection
threaded explicitly and `newId` standing for the id Mongo generates.
Returns the (possibly extended) collection and the outcome; the checks run
in source order: code-conflict first, then `startDate >= endDate`. -/
def createDiscount (newId : Nat) (store : List Discount)
    (dto : CreateDiscountDto) : List Discount × Except ServiceError Discount :=
  let codeConflict :=
    match dto.code with
    | none => false
    | some c => (findByCode store c).isSome
  if codeConflict then
    (store, Except.error
      (ServiceError.conflictError "Discount with this code already exists"))
  else if dto.endDate ≤ dto.startDate then
    (store, Except.error
      (ServiceError.badRequestError "End date must be after start date"))
  else
    let d : Discount :=
      { id := newId
        code := dto.code.map String.toUpper
        name := dto.name
        discountType := dto.discountType
        value := dto.value
        startDate := dto.startDate
        endDate := dto.endDate
        isActive := true
        maxUsageCount := dto.maxUsageCount
        usageCount := 0 }
    (store ++ [d], Except.ok d)

/-- The code-conflict test of `DiscountsService.update` (part_011, lines
97-103): a record with the uppercased code exists and has a different id. -/
def updateCodeConflict (store : List Discount) (id : Nat)
    (dto : UpdateDiscountDto) : Bool :=
  match dto.code with
  | none => false
  | some c =>
    match findByCode store c with
    | none => false
    | some existing => existing.id != id

/-- The date test of `DiscountsService.update` (part_011, lines 105-111):
only performed when both `startDate` and `endDate` are supplied. -/
def updateDatesInvalid (dto : UpdateDiscountDto) : Bool :=
  match dto.startDate, dto.endDate with
  | some s, some e => decide (e ≤ s)
  | _, _ => false

/-- `findByIdAndUpdate` field application: each supplied dto field
overwrites the stored one (`code` having been uppercased by the service
before the repository call). -/
def applyUpdate (d : Discount) (dto : UpdateDiscountDto) : Discount :=
  { d with
    code := match dto.code with
            | some c => some c.toUpper
            | none => d.code
    name := dto.name.getD d.name
    discountType := dto.discountType.getD d.discountType
    value := dto.value.getD d.value
    startDate := dto.startDate.getD d.startDate
    endDate := dto.endDate.getD d.endDate
    isActive := dto.isActive.getD d.isActive
    maxUsageCount := match dto.maxUsageCount with
                     | some m => some m
                     | none => d.maxUsageCount }

/-- `DiscountsService.update` (part_011, lines 94-119): not-found check,
code-conflict check, date check (only when both dates supplied), then the
repository update. -/
def updateDiscount (store : List Discount) (id : Nat)
    (dto : UpdateDiscountDto) : List Discount × Except ServiceError Discount :=
  match findDiscountById store id with
  | none =>
    (store, Except.error
      (ServiceError.notFoundError "Discount not found"))
  | some d =>
    if updateCodeConflict store id dto then
      (store, Except.error
        (ServiceError.conflictError "Discount with this code already exists"))
    else if updateDatesInvalid dto then
      (store, Except.error
        (ServiceError.badRequestError "End date must be after start date"))
    else
      let d2 := applyUpdate d dto
      (store.map (fun x => if x.id == id then d2 else x), Except.ok d2)

/-- A product-discount link record (`product-discount.schema.ts`). -/
structure ProductDiscount where
  id : Nat
  productId : Nat
  discountId : Nat
  isActive : Bool := true
deriving DecidableEq, Repr

/-- `findOne({ productId, discountId })` on the link collection: the first
matching record (no `isActive` condition in this query). -/
def findOneLink (store : List ProductDiscount) (productId discountId : Nat) :
    Option ProductDiscount :=
  store.find? (fun l => l.productId == productId && l.discountId == discountId)

/-- `BaseRepository.delete`: `findByIdAndDelete(id)`, returning the updated
collection and whether a record was deleted. -/
def deleteLinkById (store : List ProductDiscount) (id : Nat) :
    List ProductDiscount × Bool :=
  if store.any (fun l => l.id == id) then
    (store.filter (fun l => l.id != id), true)
  else (store, false)

/-- `ProductDiscountRepository.unlinkProductFromDiscount`
(`product-discount.repository.ts`, lines 49-59). -/
def unlinkProductFromDiscount (store : List ProductDiscount)
    (productId discountId : Nat) : List ProductDiscount × Bool :=
  match findOneLink store productId discountId with
  | none => (store, false)
  | some link => deleteLinkById store link.id

/-- `DiscountsService.unlinkFromProduct` (part_011, lines 139-147):
NotFound when the repository reports nothing removed. -/
def unlinkFromProduct (store : List ProductDiscount)
    (productId discountId : Nat) :
    List ProductDiscount × Except ServiceError Unit :=
  let r := unlinkProductFromDiscount store productId discountId
  if r.2 then (r.1, Except.ok ())
  else (r.1, Except.error
    (ServiceError.notFoundError "Product-Discount link not found"))

/-! ## Helper lemmas -/

/-- Unfolding the boolean validity filter of the pricing loop. -/
lemma pricingFilterOk_iff (now : ℤ) (d : Discount) :
    pricingFilterOk now d = true ↔
      d.isActive = true ∧ d.startDate ≤ now ∧ now ≤ d.endDate := by
  simp [pricingFilterOk, and_assoc]

/-- A discount surviving the filter is one of the fetched records and
passes the validity condition. -/
lemma mem_filterValidDiscounts {now : ℤ} {fetched : List (Option Discount)}
    {d : Discount} (h : d ∈ filterValidDiscounts now fetched) :
    some d ∈ fetched ∧ pricingFilterOk now d = true := by
  rw [filterValidDiscounts, List.mem_filterMap] at h
  obtain ⟨o, ho, heq⟩ := h
  match o with
  | none => simp at heq
  | some d' =>
    by_cases hc : pricingFilterOk now d' = true
    · simp [hc] at heq
      exact heq ▸ ⟨ho, hc⟩
    · simp [Bool.eq_false_iff.mpr hc] at heq

/-- Characterization of the best-discount loop: either no iteration beat
the initial accumulator, or the result records the first discount whose
savings strictly exceed every earlier one and are not exceeded later. -/
lemma foldl_pricingStep_spec (p : ℚ) :
    ∀ (ds : List Discount) (acc : BestAcc),
      (List.foldl (pricingStep p) acc ds = acc ∧
        ∀ d ∈ ds, savings p d ≤ acc.maxSavings) ∨
      (∃ l1 b l2, ds = l1 ++ b :: l2 ∧
        List.foldl (pricingStep p) acc ds =
          { finalPrice := discountedPrice p b, bestDiscount := some b,
            maxSavings := savings p b } ∧
        acc.maxSavings < savings p b ∧
        (∀ e ∈ l1, savings p e < savings p b) ∧
        (∀ e ∈ l2, savings p e ≤ savings p b)) := by
  intro ds
  induction ds with
  | nil =>
    intro acc
    left
    exact ⟨rfl, by simp⟩
  | cons d rest ih =>
    intro acc
    by_cases hc : acc.maxSavings < savings p d
    · have hstep : pricingStep p acc d =
          { finalPrice := discountedPrice p d, bestDiscount := some d,
            maxSavings := savings p d } := by
        simp [pricingStep, hc]
      rcases ih ⟨discountedPrice p d, some d, savings p d⟩ with ⟨heq, hall⟩ |
          ⟨l1, b, l2, hds, heq, hlt, h1, h2⟩
      · right
        refine ⟨[], d, rest, by simp, ?_, hc, by simp, ?_⟩
        · rw [List.foldl_cons, hstep, heq]
        · intro e he
          simpa using hall e he
      · right
        have hdb : savings p d < savings p b := by simpa using hlt
        refine ⟨d :: l1, b, l2, by simp [hds], ?_, lt_trans hc hdb, ?_, h2⟩
        · rw [List.foldl_cons, hstep, heq]
        · intro e he
          rcases List.mem_cons.mp he with rfl | he'
          · exact hdb
          · exact h1 e he'
    · have hstep : pricingStep p acc d = acc := by
        simp [pricingStep, hc]
      rcases ih acc with ⟨heq, hall⟩ | ⟨l1, b, l2, hds, heq, hlt, h1, h2⟩
      · left
        refine ⟨?_, ?_⟩
        · rw [List.foldl_cons, hstep, heq]
        · intro e he
          rcases List.mem_cons.mp he with rfl | he'
          · exact le_of_not_lt hc
          · exact hall e he'
      · right
        refine ⟨d :: l1, b, l2, by simp [hds], ?_, hlt, ?_, h2⟩
        · rw [List.foldl_cons, hstep, heq]
        · intro e he
          rcases List.mem_cons.mp he with rfl | he'
          · exact lt_of_le_of_lt (le_of_not_lt hc) hlt
          · exact h1 e he'

/-- If the loop selected a winner, the winner is the (unique) earliest
discount attaining the maximal savings, these savings are positive, and
`finalPrice`/`maxSavings` record its candidate price and savings. -/
lemma pickBest_some_spec {p : ℚ} {ds : List Discount} {b : Discount}
    (hb : (pickBest p ds).bestDiscount = some b) :
    pickBest p ds =
      { finalPrice := discountedPrice p b, bestDiscount := some b,
        maxSavings := savings p b } ∧
    b ∈ ds ∧ 0 < savings p b ∧
    (∀ d ∈ ds, savings p d ≤ savings p b) ∧
    ∃ l1 l2, ds = l1 ++ b :: l2 ∧ ∀ e ∈ l1, savings p e < savings p b := by
  rcases foldl_pricingStep_spec p ds ⟨p, none, 0⟩ with ⟨heq, _⟩ |
      ⟨l1, b', l2, hds, heq, hlt, h1, h2⟩
  · rw [pickBest] at hb
    rw [heq] at hb
    simp at hb
  · rw [pickBest] at hb ⊢
    rw [heq] at hb ⊢
    simp only at hb
    obtain rfl : b' = b := by simpa using hb
    refine ⟨rfl, ?_, by simpa using hlt, ?_, l1, l2, hds, h1⟩
    · rw [hds]
      exact List.mem_append_right _ (List.mem_cons_self _ _)
    · intro d hd
      rw [hds] at hd
      rcases List.mem_append.mp hd with hd1 | hd2
      · exact le_of_lt (h1 d hd1)
      · rcases List.mem_cons.mp hd2 with rfl | hd3
        · exact le_refl _
        · exact h2 d hd3

/-- If the loop selected no winner, no discount had positive savings and
the accumulator still holds the base price. -/
lemma pickBest_none_spec {p : ℚ} {ds : List Discount}
    (hb : (pickBest p ds).bestDiscount = none) :
    pickBest p ds = ⟨p, none, 0⟩ ∧ ∀ d ∈ ds, savings p d ≤ 0 := by
  rcases foldl_pricingStep_spec p ds ⟨p, none, 0⟩ with ⟨heq, hall⟩ |
      ⟨l1, b', l2, _, heq, _, _, _⟩
  · exact ⟨heq, hall⟩
  · rw [pickBest] at hb
    rw [heq] at hb
    simp at hb

/-- Savings are non-negative on a non-negative base price and discount
value (both discount types). -/
lemma savings_nonneg {p : ℚ} {d : Discount} (hp : 0 ≤ p) (hv : 0 ≤ d.value) :
    0 ≤ savings p d := by
  rcases h : d.discountType
  case percentage =>
    have he : savings p d = p * (d.value / 100) := by
      simp [savings, discountedPrice, h]
      ring
    rw [he]
    positivity
  case fixed_amount =>
    have he : discountedPrice p d = max 0 (p - d.value) := by
      simp [discountedPrice, h]
    have h2 : max 0 (p - d.value) ≤ p := max_le hp (by linarith)
    rw [savings, he]
    linarith

/-- Every run of `calculateProductPricing` returns either the plain
base-price response, or the response for a selected discount drawn from
the valid filtered list. -/
lemma calculateProductPricing_shape (now : ℤ) (product : Product)
    (ids : List Nat) (findById : Nat → Option Discount) :
    calculateProductPricing now product ids findById =
      mapToResponseDto product product.basePrice [] ∨
    ∃ b, (pickBest product.basePrice
        (filterValidDiscounts now (ids.map findById))).bestDiscount = some b ∧
      b ∈ filterValidDiscounts now (ids.map findById) ∧
      calculateProductPricing now product ids findById =
        mapToResponseDto product (discountedPrice product.basePrice b)
          [mkAppliedInfo b] := by
  rw [calculateProductPricing]
  by_cases h0 : ids.length = 0
  · simp [h0]
  · by_cases hv : (filterValidDiscounts now (ids.map findById)).length = 0
    · simp [h0, hv]
    · cases hb : (pickBest product.basePrice
          (filterValidDiscounts now (ids.map findById))).bestDiscount with
      | none =>
        left
        obtain ⟨hacc, _⟩ := pickBest_none_spec hb
        simp [h0, hv, hacc, appliedList]
      | some b =>
        right
        obtain ⟨hacc, hmem, _, _, _⟩ := pickBest_some_spec hb
        exact ⟨b, hb ▸ rfl, hmem, by simp [h0, hv, hacc, appliedList]⟩

/-- `mapToResponseDto` always sets `finalPrice`. -/
lemma mapToResponseDto_finalPrice (product : Product) (fp : ℚ)
    (al : List AppliedDiscountInfo) :
    (mapToResponseDto product fp al).finalPrice = some fp := rfl

/-! ## Concrete records used in the claim-level evaluations -/

/-- An active percentage-20 discount, validity window [0, 100], whose usage
cap is exhausted: `maxUsageCount = 5`, `usageCount = 5`. -/
def dUsedUp : Discount :=
  { id := 1, name := "d1", discountType := DiscountType.percentage
    value := 20, startDate := 0, endDate := 100, isActive := true
    maxUsageCount := some 5, usageCount := 5 }

/-- A product with `basePrice = 100`. -/
def prBase100 : Product :=
  { id := 7, name := "p", slug := "p", description := "", basePrice := 100
    categoryId := 1, sku := "SKU-1" }

/-- The discount store holding only `dUsedUp` under id 1. -/
def storeUsedUp : Nat → Option Discount :=
  fun i => if i = 1 then some dUsedUp else none

/-- C1: at `now = 50`, the product `prBase100` with the single linked,
usage-exhausted discount `dUsedUp`.  `DiscountRepository.isDiscountValid`
deems the discount invalid (usage cap reached), yet the pricing path —
whose inline filter checks only `isActive` and the date window — applies
it: `finalPrice = 80`, not the claimed `100`, and the discount appears in
`appliedDiscounts`. -/
theorem c1_pricingIgnoresUsageCap :
    isDiscountValid 50 (storeUsedUp 1) = false ∧
    (calculateProductPricing 50 prBase100 [1] storeUsedUp).finalPrice =
      some 80 ∧
    (calculateProductPricing 50 prBase100 [1] storeUsedUp).appliedDiscounts =
      some [mkAppliedInfo dUsedUp] := by
  have hfilter : filterValidDiscounts 50 [some dUsedUp] = [dUsedUp] := by
    decide
  have hpick : pickBest prBase100.basePrice [dUsedUp] =
      { finalPrice := 80, bestDiscount := some dUsedUp, maxSavings := 20 } := by
    norm_num [pickBest, pricingStep, savings, discountedPrice, dUsedUp,
      prBase100, BestAcc.mk.injEq]
  refine ⟨by decide, ?_, ?_⟩ <;>
    simp [calculateProductPricing, storeUsedUp, hfilter, hpick, appliedList,
      mapToResponseDto]

/-- A product with `basePrice = 100` and no linked discounts. -/
def prNoDiscount : Product :=
  { id := 8, name := "q", slug := "q", description := "", basePrice := 100
    categoryId := 1, sku := "SKU-2" }

/-- C2 (counterexample): for a product with no linked discounts — so no
discount applied — the response still carries `finalPrice`, set to the
base price, instead of omitting the field. -/
theorem c2_counterexample :
    ProductResponseDto.appliedDiscounts
        (calculateProductPricing 0 prNoDiscount [] (fun _ => none)) = none ∧
    (calculateProductPricing 0 prNoDiscount [] (fun _ => none)).finalPrice =
      some 100 := by
  constructor <;> simp [calculateProductPricing, mapToResponseDto, prNoDiscount]

/-- C2 (amended): every product read response carries `finalPrice` — when
no discount applies (`appliedDiscounts` absent) it equals the base price —
and `appliedDiscounts` is present only when non-empty. -/
theorem c2_finalPriceAlwaysPresent (now : ℤ) (product : Product)
    (ids : List Nat) (findById : Nat → Option Discount) :
    ((calculateProductPricing now product ids findById).finalPrice).isSome =
      true ∧
    (∀ l, (calculateProductPricing now product ids findById).appliedDiscounts =
        some l → 0 < l.length) ∧
    ((calculateProductPricing now product ids findById).appliedDiscounts =
        none →
      (calculateProductPricing now product ids findById).finalPrice =
        some product.basePrice) := by
  rcases calculateProductPricing_shape now product ids findById with h |
      ⟨b, _, _, h⟩
  · rw [h]
    refine ⟨rfl, ?_, ?_⟩
    · intro l hl
      simp [mapToResponseDto] at hl
    · intro _
      rfl
  · rw [h]
    refine ⟨rfl, ?_, ?_⟩
    · intro l hl
      simp [mapToResponseDto] at hl
      rw [← hl]
      simp
    · intro hnone
      simp [mapToResponseDto] at hnone

/-- An active percentage-20 discount with a wide validity window and no
usage cap. -/
def dPlain20 : Discount :=
  { id := 2, name := "d2", discountType := DiscountType.percentage
    value := 20, startDate := -10, endDate := 10, isActive := true }

/-- The discount store holding only `dPlain20` under id 2. -/
def storePlain20 : Nat → Option Discount :=
  fun i => if i = 2 then some dPlain20 else none

/-- An expired percentage-20 discount (window ended before `now = 0`). -/
def dExpired : Discount :=
  { id := 6, name := "d6", discountType := DiscountType.percentage
    value := 20, startDate := -20, endDate := -10, isActive := true }

/-- The discount store holding only `dExpired` under id 6. -/
def storeExpired : Nat → Option Discount :=
  fun i => if i = 6 then some dExpired else none

/-- Witness for C2's amended theorem: a response with an applied discount
has a non-empty `appliedDiscounts` list, and a response with no applied
discount carries the base price as `finalPrice`. -/
theorem c2_finalPriceAlwaysPresent_witness :
    ProductResponseDto.appliedDiscounts
        (calculateProductPricing 0 prNoDiscount [2] storePlain20) =
      some [mkAppliedInfo dPlain20] ∧
    0 < ([mkAppliedInfo dPlain20] : List AppliedDiscountInfo).length ∧
    ProductResponseDto.appliedDiscounts
        (calculateProductPricing 0 prNoDiscount [6] storeExpired) = none ∧
    (calculateProductPricing 0 prNoDiscount [6] storeExpired).finalPrice =
      some prNoDiscount.basePrice := by
  have hfilter : filterValidDiscounts 0 [some dPlain20] = [dPlain20] := by
    decide
  have hpick : pickBest prNoDiscount.basePrice [dPlain20] =
      { finalPrice := 80, bestDiscount := some dPlain20, maxSavings := 20 } := by
    norm_num [pickBest, pricingStep, savings, discountedPrice, dPlain20,
      prNoDiscount, BestAcc.mk.injEq]
  have happ : ProductResponseDto.appliedDiscounts
      (calculateProductPricing 0 prNoDiscount [2] storePlain20) =
      some [mkAppliedInfo dPlain20] := by
    simp [calculateProductPricing, storePlain20, hfilter, hpick, appliedList,
      mapToResponseDto]
  have hnone : ProductResponseDto.appliedDiscounts
      (calculateProductPricing 0 prNoDiscount [6] storeExpired) = none := by
    have hfe : filterValidDiscounts 0 [some dExpired] = [] := by
      decide
    simp [calculateProductPricing, storeExpired, hfe, mapToResponseDto]
  exact ⟨happ,
    (c2_finalPriceAlwaysPresent 0 prNoDiscount [2] storePlain20).2.1 _ happ,
    hnone,
    (c2_finalPriceAlwaysPresent 0 prNoDiscount [6] storeExpired).2.2 hnone⟩

/-- C3: (i) for two valid discounts with savings S1 < S2 (base price and
the smaller discount's value non-negative, as the schemas require), the
loop selects the S2 discount in either traversal order; (ii) in general a
selected winner attains the maximal savings and is the
earliest-encountered discount doing so (strictly beating every earlier
one). -/
theorem c3_bestDiscountSelection :
    (∀ (p : ℚ) (d1 d2 : Discount), 0 ≤ p → 0 ≤ d1.value →
      savings p d1 < savings p d2 →
      (pickBest p [d1, d2]).bestDiscount = some d2 ∧
      (pickBest p [d2, d1]).bestDiscount = some d2) ∧
    (∀ (p : ℚ) (ds : List Discount) (b : Discount),
      (pickBest p ds).bestDiscount = some b →
      b ∈ ds ∧ (∀ d ∈ ds, savings p d ≤ savings p b) ∧
      ∃ l1 l2, ds = l1 ++ b :: l2 ∧ ∀ e ∈ l1, savings p e < savings p b) := by
  constructor
  · intro p d1 d2 hp hv h12
    have hs1 : 0 ≤ savings p d1 := savings_nonneg hp hv
    have hs2 : 0 < savings p d2 := lt_of_le_of_lt hs1 h12
    refine ⟨?_, ?_⟩
    · by_cases h0 : (0 : ℚ) < savings p d1
      · simp [pickBest, pricingStep, h0, h12]
      · simp [pickBest, pricingStep, h0, hs2]
    · simp [pickBest, pricingStep, hs2, not_lt.mpr (le_of_lt h12)]
  · intro p ds b hb
    obtain ⟨_, hmem, _, hmax, l1, l2, hdecomp, hfirst⟩ := pickBest_some_spec hb
    exact ⟨hmem, hmax, l1, l2, hdecomp, hfirst⟩

/-- An active percentage-10 discount with a wide validity window. -/
def dPlain10 : Discount :=
  { id := 3, name := "d3", discountType := DiscountType.percentage
    value := 10, startDate := -10, endDate := 10, isActive := true }

/-- Witness for C3: on base price 100 the percentage-10 discount saves 10,
the percentage-20 one saves 20, and the loop picks the latter. -/
theorem c3_bestDiscountSelection_witness :
    (0 : ℚ) ≤ 100 ∧ (0 : ℚ) ≤ dPlain10.value ∧
    savings 100 dPlain10 < savings 100 dPlain20 ∧
    (pickBest 100 [dPlain10, dPlain20]).bestDiscount = some dPlain20 := by
  have h1 : (0 : ℚ) ≤ 100 := by norm_num
  have h2 : (0 : ℚ) ≤ dPlain10.value := by norm_num [dPlain10]
  have h3 : savings 100 dPlain10 < savings 100 dPlain20 := by
    norm_num [savings, discountedPrice, dPlain10, dPlain20]
  exact ⟨h1, h2, h3, (c3_bestDiscountSelection.1 100 dPlain10 dPlain20 h1 h2 h3).1⟩

/-- C4: the candidate price of a percentage discount is
`p * (1 - v/100)`, non-negative whenever `0 ≤ p` and `v ∈ [0, 100]`; the
candidate price of a fixed-amount discount is `max 0 (p - v)`,
never negative. -/
theorem c4_candidatePrice (p : ℚ) (d : Discount) :
    (d.discountType = DiscountType.percentage →
      discountedPrice p d = p * (1 - d.value / 100) ∧
      (0 ≤ p → 0 ≤ d.value → d.value ≤ 100 → 0 ≤ discountedPrice p d)) ∧
    (d.discountType = DiscountType.fixed_amount →
      discountedPrice p d = max 0 (p - d.value) ∧
      0 ≤ discountedPrice p d) := by
  constructor
  · intro ht
    have he : discountedPrice p d = p * (1 - d.value / 100) := by
      simp [discountedPrice, ht]
    refine ⟨he, ?_⟩
    intro hp hv0 hv100
    rw [he]
    have hdiv : d.value / 100 ≤ 1 := by
      rw [div_le_one (by norm_num : (0 : ℚ) < 100)]
      linarith
    have : (0 : ℚ) ≤ 1 - d.value / 100 := by linarith
    exact mul_nonneg hp this
  · intro ht
    have he : discountedPrice p d = max 0 (p - d.value) := by
      simp [discountedPrice, ht]
    exact ⟨he, he ▸ le_max_left 0 _⟩

/-- A fixed-amount-60 discount. -/
def dFixed60 : Discount :=
  { id := 4, name := "d4", discountType := DiscountType.fixed_amount
    value := 60, startDate := -10, endDate := 10, isActive := true }

/-- Witness for C4: both formulas evaluated at concrete inputs — a
percentage-20 discount on 100 and a fixed-amount-60 discount on 50
(floored at zero). -/
theorem c4_candidatePrice_witness :
    discountedPrice 100 dPlain20 = 100 * (1 - dPlain20.value / 100) ∧
    0 ≤ discountedPrice 100 dPlain20 ∧
    discountedPrice 50 dFixed60 = max 0 (50 - dFixed60.value) ∧
    0 ≤ discountedPrice 50 dFixed60 := by
  have hperc := (c4_candidatePrice 100 dPlain20).1 rfl
  have hfix := (c4_candidatePrice 50 dFixed60).2 rfl
  exact ⟨hperc.1,
    hperc.2 (by norm_num) (by norm_num [dPlain20]) (by norm_num [dPlain20]),
    hfix.1, hfix.2⟩

/-- C5: a discount that is inactive, not yet started, or already ended
never supplies an entry of `appliedDiscounts`: every entry of the
response's applied list originates from a discount that is active and
date-valid at `now` — in particular a discount distinct from the invalid
one. -/
theorem c5_invalidDiscountNeverApplied (now : ℤ) (product : Product)
    (ids : List Nat) (findById : Nat → Option Discount) (d : Discount)
    (h : d.isActive = false ∨ now < d.startDate ∨ d.endDate < now) :
    ∀ x ∈ (ProductResponseDto.appliedDiscounts
        (calculateProductPricing now product ids findById)).getD [],
      ∃ b : Discount, x = mkAppliedInfo b ∧ b.isActive = true ∧
        b.startDate ≤ now ∧ now ≤ b.endDate ∧ b ≠ d := by
  intro x hx
  rcases calculateProductPricing_shape now product ids findById with hsh |
      ⟨b, _, hmem, hsh⟩
  · rw [hsh] at hx
    simp [mapToResponseDto] at hx
  · rw [hsh] at hx
    simp [mapToResponseDto] at hx
    subst hx
    obtain ⟨_, hok⟩ := mem_filterValidDiscounts hmem
    rw [pricingFilterOk_iff] at hok
    obtain ⟨hA, hS, hE⟩ := hok
    refine ⟨b, rfl, hA, hS, hE, ?_⟩
    rintro rfl
    rcases h with h | h | h
    · rw [hA] at h
      cases h
    · exact absurd hS (not_le.mpr h)
    · exact absurd hE (not_le.mpr h)

/-- An inactive percentage-50 discount. -/
def dInactive : Discount :=
  { id := 5, name := "d5", discountType := DiscountType.percentage
    value := 50, startDate := -10, endDate := 10, isActive := false }

/-- The discount store holding `dPlain20` under id 2 and `dInactive`
under id 5. -/
def storeMixed : Nat → Option Discount :=
  fun i => if i = 2 then some dPlain20 else if i = 5 then some dInactive else none

/-- Witness for C5: with the inactive discount and a valid one both
linked, the single applied entry originates from the valid discount, not
the inactive one. -/
theorem c5_invalidDiscountNeverApplied_witness :
    dInactive.isActive = false ∧
    mkAppliedInfo dPlain20 ∈
      (ProductResponseDto.appliedDiscounts
        (calculateProductPricing 0 prNoDiscount [2, 5] storeMixed)).getD [] ∧
    ∃ b : Discount, mkAppliedInfo dPlain20 = mkAppliedInfo b ∧
      b.isActive = true ∧ b.startDate ≤ 0 ∧ 0 ≤ b.endDate ∧ b ≠ dInactive := by
  have hfilter : filterValidDiscounts 0 [some dPlain20, some dInactive] =
      [dPlain20] := by decide
  have hpick : pickBest prNoDiscount.basePrice [dPlain20] =
      { finalPrice := 80, bestDiscount := some dPlain20, maxSavings := 20 } := by
    norm_num [pickBest, pricingStep, savings, discountedPrice, dPlain20,
      prNoDiscount, BestAcc.mk.injEq]
  have hmem : mkAppliedInfo dPlain20 ∈
      (ProductResponseDto.appliedDiscounts
        (calculateProductPricing 0 prNoDiscount [2, 5] storeMixed)).getD [] := by
    simp [calculateProductPricing, storeMixed, hfilter, hpick, appliedList,
      mapToResponseDto]
  exact ⟨rfl, hmem,
    c5_invalidDiscountNeverApplied 0 prNoDiscount [2, 5] storeMixed dInactive
      (Or.inl rfl) _ hmem⟩

/-- C6: when no linked discount passes the validity filter (in particular
when there are no linked discounts at all), the response carries the base
price and no applied discounts. -/
theorem c6_noValidDiscounts (now : ℤ) (product : Product) (ids : List Nat)
    (findById : Nat → Option Discount)
    (h : filterValidDiscounts now (ids.map findById) = []) :
    (calculateProductPricing now product ids findById).finalPrice =
      some product.basePrice ∧
    (calculateProductPricing now product ids findById).appliedDiscounts =
      none := by
  rw [calculateProductPricing]
  by_cases h0 : ids.length = 0
  · simp [h0, mapToResponseDto]
  · simp [h0, h, mapToResponseDto]

/-- Witness for C6: a product whose only linked discount has expired gets
the base price and no applied discounts. -/
theorem c6_noValidDiscounts_witness :
    filterValidDiscounts 0 (List.map storeExpired [6]) = [] ∧
    (calculateProductPricing 0 prNoDiscount [6] storeExpired).finalPrice =
      some prNoDiscount.basePrice ∧
    ProductResponseDto.appliedDiscounts
        (calculateProductPricing 0 prNoDiscount [6] storeExpired) = none := by
  have h : filterValidDiscounts 0 (List.map storeExpired [6]) = [] := by
    decide
  obtain ⟨h1, h2⟩ := c6_noValidDiscounts 0 prNoDiscount [6] storeExpired h
  exact ⟨h, h1, h2⟩

/-- C7: a creation request whose `startDate` is not strictly before its
`endDate` is rejected before persistence: the discount collection is
unchanged and the outcome is an error — the date-validation error whenever
no code-conflict fires first (e.g. when no code is supplied). -/
theorem c7_createRejectsBadDates (newId : Nat) (store : List Discount)
    (dto : CreateDiscountDto) (h : ¬ dto.startDate < dto.endDate) :
    (createDiscount newId store dto).1 = store ∧
    (∃ e, (createDiscount newId store dto).2 = Except.error e) ∧
    (dto.code = none →
      (createDiscount newId store dto).2 =
        Except.error (ServiceError.badRequestError
          "End date must be after start date")) := by
  have hd : dto.endDate ≤ dto.startDate := not_lt.mp h
  cases hc : dto.code with
  | none =>
    refine ⟨?_,
      ⟨ServiceError.badRequestError "End date must be after start date", ?_⟩,
      fun _ => ?_⟩ <;> simp [createDiscount, hc, hd]
  | some c =>
    cases hfc : findByCode store c with
    | none =>
      refine ⟨?_,
        ⟨ServiceError.badRequestError "End date must be after start date", ?_⟩,
        fun hn => ?_⟩
      · simp [createDiscount, hc, hfc, hd]
      · simp [createDiscount, hc, hfc, hd]
      · cases hn
    | some d0 =>
      refine ⟨?_,
        ⟨ServiceError.conflictError "Discount with this code already exists",
          ?_⟩,
        fun hn => ?_⟩
      · simp [createDiscount, hc, hfc]
      · simp [createDiscount, hc, hfc]
      · cases hn

/-- A creation request with `startDate = 5` after `endDate = 3`. -/
def dtoBadDates : CreateDiscountDto :=
  { name := "bad", discountType := DiscountType.percentage, value := 10
    startDate := 5, endDate := 3 }

/-- Witness for C7: the bad-dates request on an empty collection is
rejected with the date-validation error and creates nothing. -/
theorem c7_createRejectsBadDates_witness :
    ¬ dtoBadDates.startDate < dtoBadDates.endDate ∧
    (createDiscount 0 [] dtoBadDates).1 = [] ∧
    (createDiscount 0 [] dtoBadDates).2 =
      Except.error (ServiceError.badRequestError
        "End date must be after start date") := by
  have h : ¬ dtoBadDates.startDate < dtoBadDates.endDate := by decide
  obtain ⟨h1, _, h3⟩ := c7_createRejectsBadDates 0 [] dtoBadDates h
  exact ⟨h, h1, h3 rfl⟩

/-- The discount stored before the C8 partial update: window [0, 10]. -/
def dWindow10 : Discount :=
  { id := 1, name := "d", discountType := DiscountType.percentage
    value := 10, startDate := 0, endDate := 10, isActive := true }

/-- A partial update supplying only `startDate = 20`. -/
def dtoOnlyStart : UpdateDiscountDto := { startDate := some 20 }

/-- The record after that update: `startDate = 20` while `endDate = 10`. -/
def dWindowBroken : Discount := { dWindow10 with startDate := 20 }

/-- C8 (counterexample): a partial update supplying only `startDate` is
accepted without any date validation and leaves a stored record whose
`startDate` exceeds its `endDate`, violating the invariant. -/
theorem c8_counterexample :
    (updateDiscount [dWindow10] 1 dtoOnlyStart).2 = Except.ok dWindowBroken ∧
    (updateDiscount [dWindow10] 1 dtoOnlyStart).1 = [dWindowBroken] ∧
    dWindowBroken.endDate < dWindowBroken.startDate := by
  refine ⟨rfl, rfl, by decide⟩

/-- C8 (amended): the date-ordering invariant is enforced at update only
when the update supplies both dates: in that case a successful update
stores exactly those dates and they satisfy `startDate < endDate`.
(A partial update supplying one date is not validated, see the
counterexample.) -/
theorem c8_updateBothDatesValidated (store : List Discount) (id : Nat)
    (dto : UpdateDiscountDto) (s e : ℤ) (d2 : Discount)
    (hs : dto.startDate = some s) (he : dto.endDate = some e)
    (hok : (updateDiscount store id dto).2 = Except.ok d2) :
    d2.startDate = s ∧ d2.endDate = e ∧ d2.startDate < d2.endDate := by
  rw [updateDiscount] at hok
  cases hf : findDiscountById store id with
  | none =>
    rw [hf] at hok
    simp at hok
  | some d =>
    rw [hf] at hok
    cases hcc : updateCodeConflict store id dto with
    | true =>
      rw [hcc] at hok
      simp at hok
    | false =>
      rw [hcc] at hok
      cases hdi : updateDatesInvalid dto with
      | true =>
        rw [hdi] at hok
        simp at hok
      | false =>
        rw [hdi] at hok
        simp at hok
        have h1 : d2.startDate = s := by
          simp [← hok, applyUpdate, hs]
        have h2 : d2.endDate = e := by
          simp [← hok, applyUpdate, he]
        have h3 : ¬ e ≤ s := by
          rw [updateDatesInvalid, hs, he] at hdi
          simpa using hdi
        exact ⟨h1, h2, by rw [h1, h2]; exact not_le.mp h3⟩

/-- An update supplying both dates, window [2, 8]. -/
def dtoBothDates : UpdateDiscountDto := { startDate := some 2, endDate := some 8 }

/-- The record after applying `dtoBothDates` to `dWindow10`. -/
def dWindow28 : Discount := { dWindow10 with startDate := 2, endDate := 8 }

/-- Witness for C8's amended theorem: an accepted both-dates update stores
the supplied dates, which are well ordered. -/
theorem c8_updateBothDatesValidated_witness :
    dtoBothDates.startDate = some 2 ∧ dtoBothDates.endDate = some 8 ∧
    (updateDiscount [dWindow10] 1 dtoBothDates).2 = Except.ok dWindow28 ∧
    dWindow28.startDate = 2 ∧ dWindow28.endDate = 8 ∧
    dWindow28.startDate < dWindow28.endDate := by
  have hok : (updateDiscount [dWindow10] 1 dtoBothDates).2 =
      Except.ok dWindow28 := rfl
  obtain ⟨h1, h2, h3⟩ :=
    c8_updateBothDatesValidated [dWindow10] 1 dtoBothDates 2 8 dWindow28
      rfl rfl hok
  exact ⟨rfl, rfl, hok, h1, h2, h3⟩

/-- Removing the records sharing an id with a member of a list whose ids
are pairwise distinct removes exactly that member. -/
lemma filter_id_ne_of_nodup :
    ∀ (store : List ProductDiscount) (link : ProductDiscount),
      (store.map ProductDiscount.id).Nodup → link ∈ store →
      (store.filter (fun x => x.id != link.id)).length + 1 = store.length ∧
      ∀ x ∈ store, x ≠ link → x ∈ store.filter (fun x => x.id != link.id) := by
  intro store
  induction store with
  | nil =>
    intro link _ hm
    cases hm
  | cons hd t ih =>
    intro link hn hm
    rw [List.map_cons, List.nodup_cons] at hn
    obtain ⟨hhd, hnt⟩ := hn
    rcases List.mem_cons.mp hm with rfl | hmt
    · have hself : (link.id != link.id) = false := by simp
      have hkeep : ∀ x ∈ t, (x.id != link.id) = true := by
        intro x hx
        have : x.id ≠ link.id := by
          intro hcontra
          exact hhd (hcontra ▸ List.mem_map_of_mem ProductDiscount.id hx)
        simpa using this
      have hfe : t.filter (fun x => x.id != link.id) = t :=
        List.filter_eq_self.mpr hkeep
      constructor
      · simp [hself, hfe]
      · intro x hx hne
        rcases List.mem_cons.mp hx with rfl | hxt
        · exact absurd rfl hne
        · simp only [List.filter_cons, hself]
          rw [hfe]
          exact hxt
    · have hne : (hd.id != link.id) = true := by
        have : hd.id ≠ link.id := by
          intro hcontra
          exact hhd (hcontra ▸ List.mem_map_of_mem ProductDiscount.id hmt)
        simpa using this
      obtain ⟨ihl, ihm⟩ := ih link hnt hmt
      constructor
      · simp only [List.filter_cons, hne, if_pos, List.length_cons]
        omega
      · intro x hx hxne
        rcases List.mem_cons.mp hx with rfl | hxt
        · simp only [List.filter_cons, hne]
          exact List.mem_cons_self _ _
        · simp only [List.filter_cons, hne]
          exact List.mem_cons_of_mem _ (ihm x hxt hxne)

/-- C9: unlinking a pair with no matching link record leaves the link
collection unchanged and raises NotFound; unlinking an existing pair
removes exactly the first matching link record (under distinct link ids)
and succeeds. -/
theorem c9_unlinkSemantics (store : List ProductDiscount)
    (productId discountId : Nat) :
    (findOneLink store productId discountId = none →
      unlinkFromProduct store productId discountId =
        (store, Except.error
          (ServiceError.notFoundError "Product-Discount link not found"))) ∧
    (∀ link, findOneLink store productId discountId = some link →
      (store.map ProductDiscount.id).Nodup →
      link ∈ store ∧
      unlinkFromProduct store productId discountId =
        (store.filter (fun x => x.id != link.id), Except.ok ()) ∧
      link ∉ store.filter (fun x => x.id != link.id) ∧
      (store.filter (fun x => x.id != link.id)).length + 1 = store.length ∧
      ∀ x ∈ store, x ≠ link →
        x ∈ store.filter (fun x => x.id != link.id)) := by
  constructor
  · intro hnone
    simp [unlinkFromProduct, unlinkProductFromDiscount, hnone]
  · intro link hsome hnodup
    have hmem : link ∈ store := List.mem_of_find?_eq_some hsome
    have hany : store.any (fun l => l.id == link.id) = true := by
      rw [List.any_eq_true]
      exact ⟨link, hmem, by simp⟩
    have hrepo : unlinkProductFromDiscount store productId discountId =
        (store.filter (fun x => x.id != link.id), true) := by
      rw [unlinkProductFromDiscount, hsome]
      simp only [deleteLinkById, hany, if_true]
    have hnotmem : link ∉ store.filter (fun x => x.id != link.id) := by
      intro hin
      have := (List.mem_filter.mp hin).2
      simp at this
    obtain ⟨hlen, hothers⟩ := filter_id_ne_of_nodup store link hnodup hmem
    exact ⟨hmem, by simp [unlinkFromProduct, hrepo], hnotmem, hlen, hothers⟩

/-- Two link records: link 1 joins product 10 with discount 20, link 2
joins product 10 with discount 21. -/
def linkStore2 : List ProductDiscount :=
  [{ id := 1, productId := 10, discountId := 20, isActive := true },
   { id := 2, productId := 10, discountId := 21, isActive := true }]

/-- The first link record of `linkStore2`. -/
def link1 : ProductDiscount :=
  { id := 1, productId := 10, discountId := 20, isActive := true }

/-- Witness for C9: unlinking (10, 20) removes exactly link 1; the
conclusion is obtained by applying the theorem at this store. -/
theorem c9_unlinkSemantics_witness :
    findOneLink linkStore2 10 20 = some link1 ∧
    unlinkFromProduct linkStore2 10 20 =
      (linkStore2.filter (fun x => x.id != link1.id), Except.ok ()) ∧
    (linkStore2.filter (fun x => x.id != link1.id)).length + 1 =
      linkStore2.length := by
  have hfind : findOneLink linkStore2 10 20 = some link1 := by
    decide
  obtain ⟨_, heq, _, hlen, _⟩ :=
    (c9_unlinkSemantics linkStore2 10 20).2 _ hfind (by decide)
  exact ⟨hfind, heq, hlen⟩

/-- C10: the zero floor only guards fixed-amount discounts; a valid
percentage discount with value above 100 (the schema only bounds the value
below by 0) drives `finalPrice` negative: the response's final price is
exactly `basePrice * (1 - value/100) < 0`. -/
theorem c10_negativeFinalPrice (now : ℤ) (product : Product) (d : Discount)
    (hp : 0 < product.basePrice) (hv : 100 < d.value)
    (ht : d.discountType = DiscountType.percentage)
    (ha : d.isActive = true) (h1 : d.startDate ≤ now) (h2 : now ≤ d.endDate) :
    (calculateProductPricing now product [d.id] (fun _ => some d)).finalPrice =
      some (product.basePrice * (1 - d.value / 100)) ∧
    product.basePrice * (1 - d.value / 100) < 0 := by
  have hneg : product.basePrice * (1 - d.value / 100) < 0 := by
    have hgt : (1 : ℚ) < d.value / 100 := by
      rw [lt_div_iff₀ (by norm_num : (0 : ℚ) < 100)]
      linarith
    have : (1 : ℚ) - d.value / 100 < 0 := by linarith
    exact mul_neg_of_pos_of_neg hp this
  have hdp : discountedPrice product.basePrice d =
      product.basePrice * (1 - d.value / 100) := by
    simp [discountedPrice, ht]
  have hsav : 0 < savings product.basePrice d := by
    rw [savings, hdp]
    linarith
  have hfilter : filterValidDiscounts now [some d] = [d] := by
    simp [filterValidDiscounts, pricingFilterOk, ha, h1, h2]
  have hpick : pickBest product.basePrice [d] =
      { finalPrice := discountedPrice product.basePrice d
        bestDiscount := some d
        maxSavings := savings product.basePrice d } := by
    simp [pickBest, pricingStep, hsav]
  refine ⟨?_, hneg⟩
  simp [calculateProductPricing, hfilter, hpick, appliedList,
    mapToResponseDto, hdp]

/-- An active percentage-150 discount with a wide validity window. -/
def dPercent150 : Discount :=
  { id := 9, name := "d9", discountType := DiscountType.percentage
    value := 150, startDate := -10, endDate := 10, isActive := true }

/-- Witness for C10: base price 100 under the percentage-150 discount
yields `finalPrice = 100 * (1 - 150/100) = -50 < 0`. -/
theorem c10_negativeFinalPrice_witness :
    (0 : ℚ) < prNoDiscount.basePrice ∧ (100 : ℚ) < dPercent150.value ∧
    (calculateProductPricing 0 prNoDiscount [dPercent150.id]
        (fun _ => some dPercent150)).finalPrice =
      some (prNoDiscount.basePrice * (1 - dPercent150.value / 100)) ∧
    prNoDiscount.basePrice * (1 - dPercent150.value / 100) < 0 := by
  have hp : (0 : ℚ) < prNoDiscount.basePrice := by norm_num [prNoDiscount]
  have hv : (100 : ℚ) < dPercent150.value := by norm_num [dPercent150]
  obtain ⟨hfp, hneg⟩ :=
    c10_negativeFinalPrice 0 prNoDiscount dPercent150 hp hv rfl rfl
      (by decide) (by decide)
  exact ⟨hp, hv, hfp, hneg⟩
